import Mathlib

/-!
Verification of the comment-extraction and indexing pipeline of
py-comment-indexer against its specification.

Shallow embedding of the source files:
  src/utils.py            scan_python_files
  src/extractor_factory.py ExtractorFactory.get_extractor
  src/py_extractors.py    PythonExtractor
  src/ts_extractors.py    TypeScriptExtractor
  src/database.py         ChromaManager.add_comments, ChromaManager.query_similar
  src/comment_indexer.py  the add command (pipeline orchestrator)

Python strings are modelled as Lean strings; the string helpers below
(pyStrip, pyLower, spaceJoin, ...) model the str methods the source uses,
over the underlying character lists so that concrete instances evaluate
in the kernel.
-/

namespace PyCommentIndexer

/-- Whitespace characters stripped by Python's str.strip with no argument
(ASCII subset; the source never feeds non-ASCII whitespace markers). -/
def isPyWhitespace (c : Char) : Bool :=
  c = ' ' || c = '\t' || c = '\n' || c = '\r' || c = '\x0b' || c = '\x0c'

/-- Models Python's str.strip(): remove leading and trailing whitespace. -/
def pyStrip (s : String) : String :=
  ⟨((s.data.dropWhile isPyWhitespace).reverse.dropWhile isPyWhitespace).reverse⟩

/-- Models Python's str.lower() on the extensions the factory compares. -/
def pyLower (s : String) : String :=
  ⟨s.data.map Char.toLower⟩

/-- Models `" ".join(parts)`. -/
def spaceJoin : List String → String
  | [] => ""
  | [s] => s
  | s :: rest => s ++ " " ++ spaceJoin rest

/-- Models Python's str.startswith on our inputs. -/
def pyStartsWith (s pre : String) : Bool :=
  pre.data.isPrefixOf s.data

/-- Models the suffix test done by fnmatch on the pattern \x7b*.py\x7d:
a name matches iff it ends with ".py". -/
def pyEndsWith (s suf : String) : Bool :=
  suf.data.isSuffixOf s.data

/-- A filesystem path relative to the scan root, as its list of
components; the last component is the file name. -/
abbrev FsPath := List String

/-- The file-name component of a path (Python: `p.name`). -/
def pathName (p : FsPath) : String := p.getLastD ""

/-- Embedding of `scan_python_files` (src/utils.py lines 11-23).
The input models the set of regular files below the root directory, each
as its component list. `directory.rglob("*.py")` yields exactly the files
whose name ends in ".py" (it descends into every subdirectory, hidden or
not); the list comprehension then keeps `p.is_file()` (all inputs here
are regular files) `and not p.name.startswith(".")`. -/
def scan_python_files (files : List FsPath) : List FsPath :=
  files.filter (fun p => pyEndsWith (pathName p) ".py" && !(pyStartsWith (pathName p) "."))

/-- The two extractor variants the factory can return. -/
inductive Extractor where
  | python
  | typescript
deriving DecidableEq

/-- Embedding of pathlib's PurePath.suffix applied to a file name:
the index of the last '.' in the character list, if any. -/
def rfindDot : List Char → Option Nat
  | [] => none
  | c :: cs =>
    match rfindDot cs with
    | some i => some (i + 1)
    | none => if c = '.' then some 0 else none

/-- Embedding of `file_path.suffix` from pathlib: the final
'.'-suffix of the name, empty when the only dot is leading or there is
no dot (CPython: `i = name.rfind('.'); name[i:] if 0 < i < len(name) - 1
else ''`, with the upper bound excluding a trailing-dot-only name). -/
def pySuffix (name : String) : String :=
  match rfindDot name.data with
  | none => ""
  | some i =>
    if 0 < i ∧ i + 1 < name.data.length then ⟨name.data.drop i⟩ else ""

/-- Embedding of `ExtractorFactory.get_extractor`
(src/extractor_factory.py lines 15-35): dispatch on the lowercased
extension, ValueError on anything unsupported (modelled as `.error`,
which nothing in the factory catches). -/
def ExtractorFactory.get_extractor (name : String) : Except String Extractor :=
  let ext := pyLower (pySuffix name)
  if ext = ".py" then .ok .python
  else if ext = ".ts" then .ok .typescript
  else .error ("不支持的文件类型: " ++ ext)

/-- Model of a Python AST as far as `extract_docstrings` observes it:
Module / FunctionDef / ClassDef nodes carry the docstring that
`ast.get_docstring` would return for them (none when the body does not
start with a string literal), every node carries its child nodes.
Any other node kind is `otherNode`. -/
inductive PyAst where
  | module (docstring : Option String) (body : List PyAst)
  | functionDef (docstring : Option String) (body : List PyAst)
  | classDef (docstring : Option String) (body : List PyAst)
  | otherNode (children : List PyAst)

/-- Child nodes, as `ast.iter_child_nodes` yields them. -/
def PyAst.children : PyAst → List PyAst
  | .module _ b => b
  | .functionDef _ b => b
  | .classDef _ b => b
  | .otherNode c => c

lemma sizeOf_append_pyAst (l₁ l₂ : List PyAst) :
    sizeOf (l₁ ++ l₂) + 1 = sizeOf l₁ + sizeOf l₂ := by
  induction l₁ with
  | nil => simp; omega
  | cons a l ih => simp only [List.cons_append, List.cons.sizeOf_spec]; omega

lemma children_sizeOf_lt (n : PyAst) : sizeOf n.children < sizeOf n := by
  cases n <;> simp [PyAst.children]

/-- Embedding of `ast.walk(tree)` (breadth-first: pop the front of the
work list, yield it, push its children at the back), restricted to the
order in which nodes are yielded. `walk [t]` is the node sequence the
`for node in ast.walk(tree)` loop visits. -/
def walk (l : List PyAst) : List PyAst :=
  match l with
  | [] => []
  | n :: rest => n :: walk (rest ++ n.children)
termination_by sizeOf l
decreasing_by
  have h1 := sizeOf_append_pyAst rest n.children
  have h2 := children_sizeOf_lt n
  simp only [List.cons.sizeOf_spec]
  omega

/-- Models `ast.get_docstring(node)` on our AST model (the stored
docstring for Module / FunctionDef / ClassDef, none otherwise). -/
def getDocstring : PyAst → Option String
  | .module d _ => d
  | .functionDef d _ => d
  | .classDef d _ => d
  | .otherNode _ => none

/-- What one loop iteration of `extract_docstrings` appends for a node:
`if isinstance(node, (FunctionDef, ClassDef, Module)) and
ast.get_docstring(node): docstrings.append(ast.get_docstring(node).strip())`.
The truthiness test is on the unstripped docstring, so an empty-string
docstring is skipped but a whitespace-only one is appended stripped.
(The preceding `hasattr(node, "docstring")` branch in the source never
fires: standard-library ast nodes have no `docstring` attribute, so it
contributes nothing and is not modelled.) -/
def docEntry (n : PyAst) : Option String :=
  match getDocstring n with
  | some s => if s = "" then none else some (pyStrip s)
  | none => none

/-- The docstring list collected by the `for node in ast.walk(tree)`
loop of `extract_docstrings`, in walk order. -/
def docstringList (t : PyAst) : List String :=
  (walk [t]).filterMap docEntry

/-- Result of `ast.parse` on the file's decoded text. -/
inductive PyParseResult where
  | syntaxError
  | parsed (tree : PyAst)

/-- Model of a Python source file as the extractor observes it:
`decodedSource` is none when reading the file as UTF-8 raises
UnicodeDecodeError, otherwise the `ast.parse` outcome; `commentTokens`
is the COMMENT-token strings the tokenize pass yields in source order
(already truncated at a TokenError, which the source swallows). -/
structure PyFileModel where
  decodedSource : Option PyParseResult
  commentTokens : List String

/-- The exceptions that can escape the docstring pass and that the
outer `except (SyntaxError, UnicodeDecodeError)` handler catches. -/
inductive PyError where
  | unicodeDecodeError

/-- Embedding of `PythonExtractor.extract_docstrings`
(src/py_extractors.py lines 39-62): reading the file re-raises a decode
error (nothing catches it here); a SyntaxError from `ast.parse` is
caught and yields ""; otherwise the collected docstrings are joined
with single spaces. -/
def PythonExtractor.extract_docstrings (f : PyFileModel) : Except PyError String :=
  match f.decodedSource with
  | none => .error .unicodeDecodeError
  | some .syntaxError => .ok ""
  | some (.parsed t) => .ok (spaceJoin (docstringList t))

/-- Embedding of `PythonExtractor.extract_line_comments`
(src/py_extractors.py lines 64-82): the stripped COMMENT tokens joined
with single spaces (a TokenError mid-stream is swallowed, keeping the
tokens already collected — reflected in `commentTokens`). -/
def PythonExtractor.extract_line_comments (f : PyFileModel) : String :=
  spaceJoin (f.commentTokens.map pyStrip)

/-- Embedding of `PythonExtractor.extract_comments`
(src/py_extractors.py lines 18-37): evaluate the docstring pass, then
the token pass, and concatenate them around one space; the
`except (SyntaxError, UnicodeDecodeError)` handler logs and returns
"". The docstring pass is evaluated first, so a decode error
short-circuits into the handler. -/
def PythonExtractor.extract_comments (f : PyFileModel) : String :=
  match PythonExtractor.extract_docstrings f with
  | .error _ => ""
  | .ok d => d ++ " " ++ PythonExtractor.extract_line_comments f

/-- Scan for the first closing marker of a block comment: models the
non-greedy tail of the regex alternative matching a block comment
(first closing marker wins). Returns the consumed characters, closing
marker included, and the remainder. -/
def tsFindBlockEnd : List Char → Option (List Char × List Char)
  | '*' :: '/' :: rest => some (['*', '/'], rest)
  | c :: rest =>
    match tsFindBlockEnd rest with
    | some (m, r) => some (c :: m, r)
    | none => none
  | [] => none

/-- Embedding of `re.findall` over the pattern that matches either a
line comment (two slashes to end of line) or a block comment (slash-star
to the first star-slash): scan left to right; at a line-comment opener
take everything up to the next newline; at a block opener with a closing
marker ahead take through that marker and resume after it; at a block
opener with no closing marker the alternative fails and scanning resumes
one character later; otherwise advance one character. Fuel is the input
length: every step consumes at least one character. -/
def tsScan (fuel : Nat) (cs : List Char) : List (List Char) :=
  match fuel, cs with
  | 0, _ => []
  | _, [] => []
  | fuel + 1, '/' :: '/' :: rest =>
    ('/' :: '/' :: rest.takeWhile (· != '\n')) :: tsScan fuel (rest.dropWhile (· != '\n'))
  | fuel + 1, '/' :: '*' :: rest =>
    match tsFindBlockEnd rest with
    | some (m, r) => ('/' :: '*' :: m) :: tsScan fuel r
    | none => tsScan fuel ('*' :: rest)
  | fuel + 1, _ :: rest => tsScan fuel rest

/-- The comment matches `re.findall(pattern, content)` returns, in
source order. -/
def tsFindComments (content : String) : List String :=
  (tsScan content.data.length content.data).map (fun m => ⟨m⟩)

/-- Exceptions that can leave `TypeScriptExtractor.extract_comments`. -/
inductive TsError where
  | nameErrorLoggingNotDefined

/-- The module-level names bound in src/ts_extractors.py: it imports
only `re`, `Path` and `BaseExtractor`; in particular the name `logging`
is never imported, so referring to it raises NameError. -/
def tsModuleBindsLogging : Bool := false

/-- Embedding of `TypeScriptExtractor.extract_comments`
(src/ts_extractors.py lines 14-35). The input is the outcome of
`file_path.read_text(encoding="utf-8")`: the decoded content, or none
when decoding raises UnicodeDecodeError. On decoded content the regex
matches are stripped and joined with single spaces. On a decode error
control enters the `except (UnicodeDecodeError, re.error)` handler,
whose first statement evaluates `logging.getLogger`; the module never
imports `logging`, so this raises NameError, which the handler does not
catch — it propagates to the caller instead of returning "". -/
def TypeScriptExtractor.extract_comments (content : Option String) : Except TsError String :=
  match content with
  | some text => .ok (spaceJoin ((tsFindComments text).map pyStrip))
  | none =>
    if tsModuleBindsLogging then .ok ""
    else .error .nameErrorLoggingNotDefined

/-- A record handed to the store: (file id, comment text). The Python
dict iterates in insertion order, so a list of pairs is the model. -/
abbrev Record := String × String

/-- Loop body of `ChromaManager.add_comments` (src/database.py lines
65-85): walk the records buffering ids/texts; `if comment:` skips a
record whose text is the empty string (Python falsiness); once the
buffer length reaches batch_size, flush it as one `collection.add` call
and start a fresh buffer; after the loop, flush any remainder. The
result is the list of flushed batches, in flush order. -/
def add_comments_go (batch_size : Nat) : List Record → List Record → List (List Record)
  | [], buf => if buf.isEmpty then [] else [buf]
  | r :: rest, buf =>
    if r.2 != "" then
      if batch_size ≤ (buf ++ [r]).length then
        (buf ++ [r]) :: add_comments_go batch_size rest []
      else
        add_comments_go batch_size rest (buf ++ [r])
    else
      add_comments_go batch_size rest buf

/-- Embedding of `ChromaManager.add_comments`: the sequence of write
(flush) calls it issues against the collection, each batch carrying its
(id, text) pairs. -/
def ChromaManager.add_comments (comment_dict : List Record) (batch_size : Nat) :
    List (List Record) :=
  add_comments_go batch_size comment_dict []

/-- Outcome of the backend interaction inside `query_similar`: either
`get_collection` / `collection.query` raises, or the backend answers
with parallel id and distance columns (`response['ids'][0]` and
`response['distances'][0]`). Distances are modelled as rationals; the
backend is external (chromadb), so its answer is a parameter. -/
inductive QueryBackend where
  | fails
  | responds (ids : List String) (distances : List ℚ)

/-- Python's built-in round to an integer on an exact value: nearest
integer, ties to even. -/
def pyRoundInt (y : ℚ) : ℤ :=
  if y - (⌊y⌋ : ℚ) < 1 / 2 then ⌊y⌋
  else if (1 : ℚ) / 2 < y - (⌊y⌋ : ℚ) then ⌊y⌋ + 1
  else if ⌊y⌋ % 2 = 0 then ⌊y⌋ else ⌊y⌋ + 1

/-- Models `round(score, 3)`: round to 3 decimal digits. -/
def round3 (x : ℚ) : ℚ := (pyRoundInt (x * 1000) : ℚ) / 1000

/-- Embedding of `ChromaManager.query_similar` (src/database.py lines
87-107): `result = []`; inside try, zip the returned ids with the
3-digit-rounded distances; any exception (from `get_collection` or
`collection.query`) is caught, logged, and the initial empty result is
returned. -/
def ChromaManager.query_similar (backend : QueryBackend) : List (String × ℚ) :=
  match backend with
  | .fails => []
  | .responds ids dists => ids.zip (dists.map round3)

/-- Outcome of the orchestrator's add command after extraction. -/
inductive AddOutcome where
  | indexed (batches : List (List Record))
  | nothingToIndex
deriving DecidableEq

/-- Embedding of the add command (src/comment_indexer.py lines 196-220)
from the point where `comment_dict` has been built by extraction:
`valid_files = \x7bk:v for k,v in comment_dict.items() if v.strip()\x7d`
filters out entries whose stripped text is empty; if any remain they are
handed to `db.add_comments(valid_files, batch_size=batch)`, otherwise
the command prints the nothing-to-index message and performs no upsert. -/
def add (extracted : List Record) (batch : Nat) : AddOutcome :=
  let valid_files := extracted.filter (fun kv => pyStrip kv.2 != "")
  if valid_files.isEmpty then .nothingToIndex
  else .indexed (ChromaManager.add_comments valid_files batch)

/-! Helper lemmas about the batching loop. -/

lemma add_comments_go_mem (B : Nat) :
    ∀ (rest buf b : List Record) (r : Record),
      b ∈ add_comments_go B rest buf → r ∈ b → r ∈ buf ∨ r ∈ rest := by
  intro rest
  induction rest with
  | nil =>
    intro buf b r hb hr
    simp only [add_comments_go] at hb
    split at hb
    · simp at hb
    · simp only [List.mem_singleton] at hb
      subst hb
      exact Or.inl hr
  | cons p rest ih =>
    intro buf b r hb hr
    simp only [add_comments_go] at hb
    by_cases hp : (p.2 != "") = true
    · rw [if_pos hp] at hb
      by_cases hB : B ≤ (buf ++ [p]).length
      · rw [if_pos hB] at hb
        rcases List.mem_cons.mp hb with h | h
        · subst h
          rcases List.mem_append.mp hr with h | h
          · exact Or.inl h
          · simp only [List.mem_singleton] at h
            subst h
            exact Or.inr (List.mem_cons_self _ _)
        · rcases ih [] b r h hr with h' | h'
          · simp at h'
          · exact Or.inr (List.mem_cons_of_mem _ h')
      · rw [if_neg hB] at hb
        rcases ih (buf ++ [p]) b r hb hr with h' | h'
        · rcases List.mem_append.mp h' with h'' | h''
          · exact Or.inl h''
          · simp only [List.mem_singleton] at h''
            subst h''
            exact Or.inr (List.mem_cons_self _ _)
        · exact Or.inr (List.mem_cons_of_mem _ h')
    · rw [if_neg hp] at hb
      rcases ih buf b r hb hr with h' | h'
      · exact Or.inl h'
      · exact Or.inr (List.mem_cons_of_mem _ h')

lemma add_comments_go_flatten (B : Nat) :
    ∀ (rest buf : List Record),
      (add_comments_go B rest buf).flatten = buf ++ rest.filter (fun r => r.2 != "") := by
  intro rest
  induction rest with
  | nil =>
    intro buf
    simp only [add_comments_go, List.filter_nil, List.append_nil]
    split
    · simp_all [List.isEmpty_iff]
    · simp
  | cons p rest ih =>
    intro buf
    simp only [add_comments_go]
    by_cases hp : (p.2 != "") = true
    · have hfc : (p :: rest).filter (fun r => r.2 != "") = p :: rest.filter (fun r => r.2 != "") := by
        simp [List.filter_cons, hp]
      rw [if_pos hp, hfc]
      by_cases hB : B ≤ (buf ++ [p]).length
      · rw [if_pos hB]
        simp [ih]
      · rw [if_neg hB]
        simp [ih]
    · rw [if_neg hp]
      have hp2 : p.2 = "" := by simpa using hp
      rw [ih]
      simp [List.filter_cons, hp2]

lemma add_comments_go_length (B : Nat) (hB : 1 ≤ B) :
    ∀ (rest buf : List Record), buf.length < B →
      (add_comments_go B rest buf).length =
        (buf.length + (rest.filter (fun r => r.2 != "")).length + B - 1) / B := by
  intro rest
  induction rest with
  | nil =>
    intro buf hbuf
    simp only [add_comments_go, List.filter_nil, List.length_nil, Nat.add_zero]
    split
    · next h =>
      rw [List.isEmpty_iff.mp h]
      simp only [List.length_nil, List.length_nil, Nat.zero_add]
      exact (Nat.div_eq_of_lt (by omega)).symm
    · next h =>
      have h1 : 1 ≤ buf.length := by
        cases buf with
        | nil => simp at h
        | cons a l => simp
      simp only [List.length_singleton]
      refine (Nat.div_eq_of_lt_le (by omega) (by omega)).symm
  | cons p rest ih =>
    intro buf hbuf
    simp only [add_comments_go]
    by_cases hp : (p.2 != "") = true
    · rw [if_pos hp]
      by_cases hBle : B ≤ (buf ++ [p]).length
      · rw [if_pos hBle]
        have hlen : buf.length + 1 = B := by
          simp only [List.length_append, List.length_singleton] at hBle
          omega
        have h0 : (0 : Nat) < B := hB
        have ih0 := ih [] (by simpa using h0)
        simp only [List.length_nil, Nat.zero_add] at ih0
        have hfc : (p :: rest).filter (fun r => r.2 != "") = p :: rest.filter (fun r => r.2 != "") := by
          simp [List.filter_cons, hp]
        rw [List.length_cons, ih0, hfc, List.length_cons]
        have key : buf.length + ((rest.filter (fun r => r.2 != "")).length + 1) + B - 1
            = (rest.filter (fun r => r.2 != "")).length + B - 1 + B := by omega
        rw [key, Nat.add_div_right _ h0]
      · rw [if_neg hBle]
        have hlt : (buf ++ [p]).length < B := by
          simp only [List.length_append, List.length_singleton] at hBle ⊢
          omega
        have hfc : (p :: rest).filter (fun r => r.2 != "") = p :: rest.filter (fun r => r.2 != "") := by
          simp [List.filter_cons, hp]
        rw [ih (buf ++ [p]) hlt, hfc]
        simp only [List.length_append, List.length_singleton, List.length_cons,
          List.length_nil, Nat.zero_add]
        have harith : buf.length + 1 + (rest.filter (fun r => r.2 != "")).length + B - 1
            = buf.length + ((rest.filter (fun r => r.2 != "")).length + 1) + B - 1 := by
          omega
        rw [harith]
    · rw [if_neg hp]
      rw [ih buf hbuf]
      have hp2 : p.2 = "" := by simpa using hp
      simp [List.filter_cons, hp2]

/-! Claim theorems. -/

/-- C1: for every extraction result, the add pipeline never hands the
store a record whose text is empty or whitespace-only: every record in
any flushed batch has non-blank stripped text, and when every extracted
entry strips to empty the pipeline performs no upsert and reports
nothing-to-index. -/
theorem C1_add_never_persists_blank (extracted : List Record) (batch : Nat) :
    (∀ batches, add extracted batch = .indexed batches →
      ∀ b ∈ batches, ∀ r ∈ b, pyStrip r.2 ≠ "") ∧
    ((∀ kv ∈ extracted, pyStrip kv.2 = "") → add extracted batch = .nothingToIndex) := by
  constructor
  · intro batches hb b hbB r hrb
    simp only [add] at hb
    split at hb
    · simp at hb
    · injection hb with hbeq
      subst hbeq
      rcases add_comments_go_mem batch _ _ b r hbB hrb with h | h
      · simp at h
      · have := (List.mem_filter.mp h).2
        simpa using this
  · intro hall
    have hfe : extracted.filter (fun kv => pyStrip kv.2 != "") = [] := by
      apply List.filter_eq_nil_iff.mpr
      intro a ha
      simp [hall a ha]
    simp [add, hfe]

/-- C1 witness: two files whose extracted texts are a single space and
the empty string lead to the nothing-to-index outcome. -/
theorem C1_witness : add [("a.py", " "), ("b.py", "")] 7 = .nothingToIndex :=
  (C1_add_never_persists_blank _ _).2 (by decide)

/-- C2: on a file whose content cannot be decoded, the TypeScript
variant does NOT return the empty string: its except handler references
the unimported name `logging`, so a NameError escapes to the caller
(first conjunct); the Python variant does return "" there (second
conjunct). This refutes the claim for the TypeScript variant and
exhibits the code bug. -/
theorem C2_ts_decode_error_raises :
    TypeScriptExtractor.extract_comments none = .error .nameErrorLoggingNotDefined ∧
    PythonExtractor.extract_comments ⟨none, []⟩ = "" :=
  ⟨rfl, rfl⟩

/-- C3: for records that all carry non-empty text and a batch size
B ≥ 1, add_comments issues exactly ⌈N/B⌉ = (N + B - 1) / B flush calls,
and the concatenation of the flushed batches is exactly the input
record sequence (so no record is dropped or duplicated). -/
theorem C3_add_comments_batching (records : List Record) (B : Nat)
    (hall : ∀ r ∈ records, r.2 ≠ "") (hB : 1 ≤ B) :
    (ChromaManager.add_comments records B).length = (records.length + B - 1) / B ∧
    (ChromaManager.add_comments records B).flatten = records := by
  have hfilter : records.filter (fun r => r.2 != "") = records := by
    apply List.filter_eq_self.mpr
    intro a ha
    simpa using hall a ha
  constructor
  · have h := add_comments_go_length B hB records [] (by simpa using hB)
    simpa [ChromaManager.add_comments, hfilter] using h
  · have h := add_comments_go_flatten B records []
    simpa [ChromaManager.add_comments, hfilter] using h

/-- C3 witness: three records at batch size 2 flush twice and flatten
back to the input. -/
theorem C3_witness :
    (ChromaManager.add_comments [("a", "x"), ("b", "y"), ("c", "z")] 2).length
        = ([("a", "x"), ("b", "y"), ("c", "z")].length + 2 - 1) / 2 ∧
    (ChromaManager.add_comments [("a", "x"), ("b", "y"), ("c", "z")] 2).flatten
        = [("a", "x"), ("b", "y"), ("c", "z")] :=
  C3_add_comments_batching _ 2 (by decide) (by decide)

/-- C4: the factory dispatches on the lowercased extension of the file
name: ".py" gives the Python variant, ".ts" the TypeScript variant, and
anything else the unsupported-file-type ValueError, which it does not
catch. -/
theorem C4_get_extractor_dispatch (name : String) :
    (pyLower (pySuffix name) = ".py" →
      ExtractorFactory.get_extractor name = .ok .python) ∧
    (pyLower (pySuffix name) = ".ts" →
      ExtractorFactory.get_extractor name = .ok .typescript) ∧
    (pyLower (pySuffix name) ≠ ".py" → pyLower (pySuffix name) ≠ ".ts" →
      ExtractorFactory.get_extractor name
        = .error ("不支持的文件类型: " ++ pyLower (pySuffix name))) := by
  refine ⟨fun h => ?_, fun h => ?_, fun h1 h2 => ?_⟩
  · simp [ExtractorFactory.get_extractor, h]
  · simp [ExtractorFactory.get_extractor, h]
  · simp [ExtractorFactory.get_extractor, h1, h2]

/-- C4 witness: an uppercase ".PY" extension still selects the Python
variant. -/
theorem C4_witness : ExtractorFactory.get_extractor "a.PY" = .ok .python :=
  (C4_get_extractor_dispatch "a.PY").1 (by decide)

/-- C5 counterexample: the scanner returns a file inside the hidden
virtual-environment directory ".venv" (whose name begins with the
hidden marker) and omits a ".ts" file, refuting both the
excluded-directory part and the \x7b.py, .ts\x7d admitted-extension
part of the claim. -/
theorem C5_scan_counterexample :
    scan_python_files [[".venv", "lib.py"], ["app.ts"]] = [[".venv", "lib.py"]] ∧
    pyStartsWith ".venv" "." = true := by
  decide

/-- C5 amended: the scanner returns exactly the regular files whose own
name ends in ".py" and does not begin with "."; it inspects only the
file name, so hidden or virtual-environment directories on the path are
not excluded, and no ".ts" file is admitted. -/
theorem C5_scan_spec (files : List FsPath) (p : FsPath) :
    p ∈ scan_python_files files ↔
      p ∈ files ∧ pyEndsWith (pathName p) ".py" = true ∧
        pyStartsWith (pathName p) "." = false := by
  simp [scan_python_files, List.mem_filter]

/-- C5 witness: the characterization at a concrete file list. -/
theorem C5_scan_spec_witness :
    [".venv", "lib.py"] ∈ scan_python_files [[".venv", "lib.py"], ["app.ts"]] ↔
      ([".venv", "lib.py"] ∈ [[".venv", "lib.py"], ["app.ts"]] ∧
        pyEndsWith (pathName [".venv", "lib.py"]) ".py" = true ∧
        pyStartsWith (pathName [".venv", "lib.py"]) "." = false) :=
  C5_scan_spec _ _

/-- C6 counterexample: a well-formed module with no docstrings and no
comment tokens makes extract_comments return a single space (the
separator joining the two empty halves), not the empty string. -/
theorem C6_no_comments_counterexample :
    PythonExtractor.extract_comments ⟨some (.parsed (.module none [])), []⟩ = " " ∧
    (" " : String) ≠ "" := by
  constructor
  · simp [PythonExtractor.extract_comments, PythonExtractor.extract_docstrings,
      PythonExtractor.extract_line_comments, docstringList, walk, PyAst.children,
      docEntry, getDocstring, spaceJoin]
  · decide

/-- C6 amended: for every parsed Python file with no collected
docstrings and no comment tokens, extract_comments returns the
single-space string " " (whitespace-only, stripped to empty by the
orchestrator's filter), rather than "". -/
theorem C6_no_comments_space (f : PyFileModel) (t : PyAst)
    (h : f.decodedSource = some (.parsed t)) (hd : docstringList t = [])
    (hc : f.commentTokens = []) :
    PythonExtractor.extract_comments f = " " := by
  simp [PythonExtractor.extract_comments, PythonExtractor.extract_docstrings,
    PythonExtractor.extract_line_comments, h, hd, hc, spaceJoin]

/-- C6 witness: a module with one non-docstring statement and no
comments. -/
theorem C6_witness :
    PythonExtractor.extract_comments
        ⟨some (.parsed (.module none [.otherNode []])), []⟩ = " " :=
  C6_no_comments_space _ (.module none [.otherNode []]) rfl
    (by simp [docstringList, walk, PyAst.children, docEntry, getDocstring]) rfl

/-- C7: for every file whose content parses, extract_comments is the
docstrings collected in walk order joined by single spaces,
concatenated with the stripped line comments in source order joined by
single spaces, separated by one space. -/
theorem C7_extract_comments_structure (f : PyFileModel) (t : PyAst)
    (h : f.decodedSource = some (.parsed t)) :
    PythonExtractor.extract_comments f =
      spaceJoin (docstringList t) ++ " " ++
        spaceJoin (f.commentTokens.map pyStrip) := by
  simp [PythonExtractor.extract_comments, PythonExtractor.extract_docstrings,
    PythonExtractor.extract_line_comments, h]

/-- C7 witness: a module docstring plus a function docstring and one
line comment. -/
theorem C7_witness :
    PythonExtractor.extract_comments
        ⟨some (.parsed (.module (some "module doc") [.functionDef (some "f doc") []])),
          ["# a comment"]⟩ =
      spaceJoin (docstringList (.module (some "module doc") [.functionDef (some "f doc") []]))
        ++ " " ++ spaceJoin (["# a comment"].map pyStrip) :=
  C7_extract_comments_structure _ _ rfl

/-- C8 counterexample: a record whose text is the empty string is not
included in any flushed batch — `if comment:` drops it — refuting the
claim that this layer does not filter. -/
theorem C8_empty_record_not_flushed :
    ChromaManager.add_comments [("a", "")] 1 = [] ∧
    ¬ ∃ b ∈ ChromaManager.add_comments [("a", "")] 1, ("a", "") ∈ b := by
  decide

/-- C8 amended: add_comments drops exactly the records whose text is
the empty string; every record with non-empty text — whitespace-only
included — appears in the flushed batches. -/
theorem C8_nonempty_records_flushed (records : List Record) (B : Nat) (r : Record)
    (hr : r ∈ records) (hne : r.2 ≠ "") :
    r ∈ (ChromaManager.add_comments records B).flatten := by
  rw [ChromaManager.add_comments, add_comments_go_flatten]
  simp only [List.nil_append]
  exact List.mem_filter.mpr ⟨hr, by simpa using hne⟩

/-- C8 witness: a whitespace-only record is flushed. -/
theorem C8_witness : ("a", " ") ∈ (ChromaManager.add_comments [("a", " ")] 1).flatten :=
  C8_nonempty_records_flushed _ 1 _ (by decide) (by decide)

/-- C9: query_similar returns at most n results when the backend honours
its requested result count, returns the empty list (not an exception)
whenever the backend interaction fails, and on success returns the ids
zipped with the 3-decimal-digit-rounded distances. -/
theorem C9_query_similar_spec (n : Nat) (backend : QueryBackend)
    (hn : ∀ ids dists, backend = .responds ids dists → ids.length ≤ n) :
    (ChromaManager.query_similar backend).length ≤ n ∧
    (backend = .fails → ChromaManager.query_similar backend = []) ∧
    (∀ ids dists, backend = .responds ids dists →
      ChromaManager.query_similar backend = ids.zip (dists.map round3)) := by
  refine ⟨?_, ?_, ?_⟩
  · cases backend with
    | fails => simp [ChromaManager.query_similar]
    | responds ids dists =>
      have h := hn ids dists rfl
      simp only [ChromaManager.query_similar, List.length_zip, List.length_map]
      omega
  · intro h
    subst h
    rfl
  · intro ids dists h
    subst h
    rfl

/-- C9 witness: a one-row backend response under a requested count of
two. -/
theorem C9_witness :
    (ChromaManager.query_similar (.responds ["a"] [1 / 3])).length ≤ 2 ∧
    (QueryBackend.responds ["a"] [1 / 3] = .fails →
      ChromaManager.query_similar (.responds ["a"] [1 / 3]) = []) ∧
    (∀ ids dists, QueryBackend.responds ["a"] [1 / 3] = .responds ids dists →
      ChromaManager.query_similar (.responds ["a"] [1 / 3]) = ids.zip (dists.map round3)) :=
  C9_query_similar_spec 2 _ (by
    intro ids dists h
    injection h with h1 h2
    subst h1
    decide)

/-- C10: at the store's interface a record is skipped iff its text is
exactly the empty string (Python falsiness): the flushed batches
flatten to the input filtered by text non-emptiness, so a
whitespace-only text such as " " is still written — the no-whitespace
invariant lives in the orchestrator's strip-based filter, not here. -/
theorem C10_add_comments_skips_iff_empty (records : List Record) (B : Nat) :
    (ChromaManager.add_comments records B).flatten
      = records.filter (fun r => r.2 != "") := by
  rw [ChromaManager.add_comments, add_comments_go_flatten]
  simp

end PyCommentIndexer
